import Mathlib

/-!
# Verification of the CS journal recommender

A shallow embedding of the two Python source files of the repository
(`cs_journal_recommender.py`, the line-mode surface, and `cs_journal_ui.py`,
the form-based surface) together with proofs about the fetch, index-build and
ranking pipeline.

Modelling conventions:

* `pandas.DataFrame` of paper rows ↦ `List Paper` (row order preserved).
* The parsed Atom XML response ↦ `Response` (status code plus entry list);
  the XML parsing itself is not modelled, only the field extraction that the
  Python code performs on the parsed tree.
* Real-valued TF-IDF arithmetic is modelled over `ℝ` (the idealisation of the
  float arithmetic; `TfidfVectorizer(max_features=10000, stop_words='english')`
  with its defaults: raw term counts, smooth idf `log((1+n)/(1+df))+1`,
  l2 row normalisation, token pattern `\b\w\w+\b` on the lowercased text).
* `np.argsort` (default kind) is modelled as the *stable* argsort via
  `List.insertionSort` over indices; NumPy leaves the relative order of equal
  keys unspecified for the default sort, but it is stable on the small inputs
  exercised here, and the stable model is the one the spec describes.
* Python slices `xs[:k]` / `xs[-k:]` are modelled with their full signed
  semantics (`pyTake` / `pyLastSlice`).
-/

/-- One `link` element of a parsed Atom entry: the optional `title` attribute
and the `href` attribute. -/
structure AtomLink where
  titleAttr : Option String
  href : String
deriving DecidableEq, Repr

/-- One `entry` element of a parsed Atom response, with the fields the Python
code reads: `title`, `summary`, the `link` children, the `author/name` texts,
and `published`. -/
structure AtomEntry where
  title : String
  summary : String
  links : List AtomLink
  authorNames : List String
  published : String
deriving DecidableEq, Repr

/-- The HTTP response consumed by `fetch_arxiv_papers`: the status code and
the entry list that XML parsing of the body would yield. -/
structure Response where
  status_code : Nat
  entries : List AtomEntry
deriving DecidableEq, Repr

/-- One row of the paper DataFrame, with the columns built in
`fetch_arxiv_papers`. -/
structure Paper where
  title : String
  abstract : String
  text : String
  authors : String
  year : String
  pdf_link : Option String
deriving DecidableEq, Repr

/-- The `pdf_link` accumulation loop of `fetch_arxiv_papers`:
`for link in links: if link.attrib.get("title") == "pdf": pdf_link = href`.
There is no `break`, so a later matching link overwrites an earlier one. -/
def pdfLinkOf (links : List AtomLink) : Option String :=
  links.foldl (fun acc l => if l.titleAttr = some "pdf" then some l.href else acc) none

/-- Construction of one DataFrame row from a parsed entry, mirroring the body
of the `for e in entries` loop in `fetch_arxiv_papers` (both surfaces have the
identical loop). -/
def mkPaper (e : AtomEntry) : Paper :=
  let title := (e.title.trim).replace "\n" " "
  let abstract := (e.summary.trim).replace "\n" " "
  let published := e.published.take 10
  { title := title
    abstract := abstract
    text := title ++ ". " ++ abstract
    authors := String.intercalate ", " e.authorNames
    year := published.take 4
    pdf_link := pdfLinkOf e.links }

/-- `fetch_arxiv_papers` (identical in both source files, apart from logging
and `MAX_RESULTS`): on a non-200 status return an empty DataFrame, otherwise
one row per parsed entry. -/
def fetch_arxiv_papers (r : Response) : List Paper :=
  if r.status_code ≠ 200 then [] else r.entries.map mkPaper

/-- Decimal digit run evaluation used by the model of Python `int`. -/
def digitsValAux : List Char → Nat → Option Nat
  | [], acc => some acc
  | c :: cs, acc =>
    if c.isDigit then digitsValAux cs (acc * 10 + (c.toNat - 48)) else none

/-- Model of Python `int(s)` on an already-stripped string: an optional sign
followed by a nonempty digit run; anything else raises (here: `none`). -/
def parse_int (s : String) : Option Int :=
  match s.data with
  | [] => none
  | '+' :: cs => if cs.isEmpty then none else (digitsValAux cs 0).map fun n => (n : Int)
  | '-' :: cs => if cs.isEmpty then none else (digitsValAux cs 0).map fun n => -(n : Int)
  | c :: cs => (digitsValAux (c :: cs) 0).map fun n => (n : Int)

/-- The top-K input handling of the line-mode `main` loop:
`top_k = int(topk_s) if topk_s else 10` inside `try`, with `except: top_k = 10`.
An empty string or an unparsable string yields the default 10; any parseable
integer (negative ones included) passes through unchanged. -/
def parse_topk (s : String) : Int :=
  if s = "" then 10
  else
    match parse_int s with
    | some n => n
    | none => 10

/-- Python slice `xs[:k]` for a possibly negative `k`. -/
def pyTake {α : Type} (k : Int) (xs : List α) : List α :=
  if 0 ≤ k then xs.take k.toNat else xs.take ((xs.length : Int) + k).toNat

/-- Python slice `xs[-k:]` for a possibly negative or zero `k`. -/
def pyLastSlice {α : Type} (k : Int) (xs : List α) : List α :=
  if 0 < k then xs.drop ((xs.length : Int) - k).toNat else xs.drop ((-k).toNat)

/-- `df.iloc[idx]`: select rows by position. All positions produced by the
ranking code are in range, so dropping out-of-range ones is unobservable. -/
def iloc (df : List Paper) (idx : List Nat) : List Paper :=
  idx.filterMap fun i => df[i]?

/-- A word character of the sklearn token pattern `\w` (letters, digits,
underscore). -/
def wordChar (c : Char) : Bool := c.isAlphanum || c = '_'

/-- Splits a character list into maximal runs of word characters
(the accumulator holds the current run, reversed). -/
def tokenizeAux : List Char → List Char → List (List Char)
  | [], acc => if acc.isEmpty then [] else [acc.reverse]
  | c :: cs, acc =>
    if wordChar c then tokenizeAux cs (c :: acc)
    else if acc.isEmpty then tokenizeAux cs [] else acc.reverse :: tokenizeAux cs []

/-- The sklearn default tokenizer: lowercase, then tokens matching
`\b\w\w+\b`, i.e. maximal word-character runs of length at least 2.
(Lowercasing is applied characterwise, which is what `str.lower` does.) -/
def tokenize (s : String) : List String :=
  ((tokenizeAux (s.data.map Char.toLower) []).filter fun t => 2 ≤ t.length).map
    fun t => String.mk t

/-- sklearn's fixed `ENGLISH_STOP_WORDS` set, selected by
`stop_words='english'`. -/
def ENGLISH_STOP_WORDS : List String :=
  ["a", "about", "above", "across", "after", "afterwards", "again", "against",
   "all", "almost", "alone", "along", "already", "also", "although", "always",
   "am", "among", "amongst", "amoungst", "amount", "an", "and", "another",
   "any", "anyhow", "anyone", "anything", "anyway", "anywhere", "are",
   "around", "as", "at", "back", "be", "became", "because", "become",
   "becomes", "becoming", "been", "before", "beforehand", "behind", "being",
   "below", "beside", "besides", "between", "beyond", "bill", "both",
   "bottom", "but", "by", "call", "can", "cannot", "cant", "co", "con",
   "could", "couldnt", "cry", "de", "describe", "detail", "do", "done",
   "down", "due", "during", "each", "eg", "eight", "either", "eleven",
   "else", "elsewhere", "empty", "enough", "etc", "even", "ever", "every",
   "everyone", "everything", "everywhere", "except", "few", "fifteen",
   "fifty", "fill", "find", "fire", "first", "five", "for", "former",
   "formerly", "forty", "found", "four", "from", "front", "full", "further",
   "get", "give", "go", "had", "has", "hasnt", "have", "he", "hence", "her",
   "here", "hereafter", "hereby", "herein", "hereupon", "hers", "herself",
   "him", "himself", "his", "how", "however", "hundred", "i", "ie", "if",
   "in", "inc", "indeed", "interest", "into", "is", "it", "its", "itself",
   "keep", "last", "latter", "latterly", "least", "less", "ltd", "made",
   "many", "may", "me", "meanwhile", "might", "mill", "mine", "more",
   "moreover", "most", "mostly", "move", "much", "must", "my", "myself",
   "name", "namely", "neither", "never", "nevertheless", "next", "nine",
   "no", "nobody", "none", "noone", "nor", "not", "nothing", "now",
   "nowhere", "of", "off", "often", "on", "once", "one", "only", "onto",
   "or", "other", "others", "otherwise", "our", "ours", "ourselves", "out",
   "over", "own", "part", "per", "perhaps", "please", "put", "rather", "re",
   "same", "see", "seem", "seemed", "seeming", "seems", "serious", "several",
   "she", "should", "show", "side", "since", "sincere", "six", "sixty",
   "so", "some", "somehow", "someone", "something", "sometime", "sometimes",
   "somewhere", "still", "such", "system", "take", "ten", "than", "that",
   "the", "their", "them", "themselves", "then", "thence", "there",
   "thereafter", "thereby", "therefore", "therein", "thereupon", "these",
   "they", "thick", "thin", "third", "this", "those", "though", "three",
   "through", "throughout", "thru", "thus", "to", "together", "too", "top",
   "toward", "towards", "twelve", "twenty", "two", "un", "under", "until",
   "up", "upon", "us", "very", "via", "was", "we", "well", "were", "what",
   "whatever", "when", "whence", "whenever", "where", "whereafter",
   "whereas", "whereby", "wherein", "whereupon", "wherever", "whether",
   "which", "while", "whither", "who", "whoever", "whole", "whom", "whose",
   "why", "will", "with", "within", "without", "would", "yet", "you",
   "your", "yours", "yourself", "yourselves"]

/-- Code-point lexicographic comparison of character lists (the order of
Python `sorted` on strings, written so that it reduces in the kernel). -/
def charListLeb : List Char → List Char → Bool
  | [], _ => true
  | _ :: _, [] => false
  | a :: as, b :: bs =>
    if a.toNat < b.toNat then true
    else if b.toNat < a.toNat then false
    else charListLeb as bs

/-- Code-point lexicographic order on strings. -/
def strLeb (a b : String) : Bool := charListLeb a.data b.data

/-- Number of occurrences of term `t` in the tokenization of `text`
(one cell of the raw count matrix). -/
def termCount (text t : String) : Nat := (tokenize text).count t

/-- The `df['text']` column (the fit input of `build_tfidf`). -/
def corpusTexts (df : List Paper) : List String := df.map (·.text)

/-- Distinct non-stop-word terms of the corpus, in first-seen order
(before sorting and the `max_features` cap). -/
def rawVocab (df : List Paper) : List String :=
  (((corpusTexts df).map tokenize).flatten.filter
    fun t => !decide (t ∈ ENGLISH_STOP_WORDS)).dedup

/-- Total number of occurrences of `t` across the corpus (the frequency used
by the `max_features` cap). -/
def totalCount (df : List Paper) (t : String) : Nat :=
  ((corpusTexts df).map fun x => termCount x t).sum

/-- The fitted vocabulary of `TfidfVectorizer(max_features=10000, ...)`:
all distinct non-stop terms, alphabetically ordered; when more than 10000
are present, the 10000 most frequent are kept (stable by alphabetical order
on equal frequency — NumPy leaves the tie order of the cap unspecified). -/
def vocabOf (df : List Paper) : List String :=
  let terms := (rawVocab df).insertionSort fun a b => strLeb a b = true
  if terms.length ≤ 10000 then terms
  else
    ((terms.insertionSort fun a b => totalCount df b ≤ totalCount df a).take
      10000).insertionSort fun a b => strLeb a b = true

/-- The columns of the weight matrix, as a finite set of terms. -/
def vocabSet (df : List Paper) : Finset String := (vocabOf df).toFinset

/-- Document frequency of `t`: number of corpus rows containing `t`. -/
def docFreq (df : List Paper) (t : String) : Nat :=
  (corpusTexts df).countP fun x => decide (0 < termCount x t)

/-- Smoothed inverse document frequency of sklearn's defaults
(`smooth_idf=True`): `log((1+n)/(1+df)) + 1`. -/
noncomputable def idf (df : List Paper) (t : String) : ℝ :=
  Real.log ((1 + (df.length : ℝ)) / (1 + (docFreq df t : ℝ))) + 1

/-- Unnormalised TF-IDF weight vector of one text against the fitted corpus:
raw count times idf.  Terms outside the vocabulary never enter any sum. -/
noncomputable def rawVec (df : List Paper) (text : String) : String → ℝ :=
  fun t => (termCount text t : ℝ) * idf df t

/-- Squared l2 norm of a weight vector over the vocabulary columns. -/
noncomputable def sqNorm (df : List Paper) (v : String → ℝ) : ℝ :=
  ∑ t ∈ vocabSet df, v t ^ 2

/-- sklearn l2 row normalisation (`norm='l2'`): divide by the row norm,
with zero rows left untouched (`norms[norms == 0.0] = 1.0`). -/
noncomputable def l2normalize (df : List Paper) (v : String → ℝ) : String → ℝ :=
  fun t =>
    v t / (if Real.sqrt (sqNorm df v) = 0 then 1 else Real.sqrt (sqNorm df v))

/-- One row of the fitted matrix `X` (or of `vect.transform([query])`):
the l2-normalised TF-IDF vector of a text. -/
noncomputable def rowVec (df : List Paper) (text : String) : String → ℝ :=
  l2normalize df (rawVec df text)

/-- `linear_kernel` of two rows: the dot product over the vocabulary
columns. -/
noncomputable def dotV (df : List Paper) (v u : String → ℝ) : ℝ :=
  ∑ t ∈ vocabSet df, v t * u t

/-- `linear_kernel(vect.transform([query]), X).flatten()`: the similarity of
the query row against every corpus row, in corpus order. -/
noncomputable def simsList (df : List Paper) (query : String) : List ℝ :=
  df.map fun p => dotV df (rowVec df query) (rowVec df p.text)

/-- Ascending stable argsort order on positions: by key value, ties by
position. -/
def npRelAsc (v : List ℝ) (i j : Nat) : Prop :=
  v.getD i 0 < v.getD j 0 ∨ (v.getD i 0 = v.getD j 0 ∧ i ≤ j)

/-- Model of `np.argsort(v)`: the positions `0, …, len v - 1` sorted stably by
key (see the module comment on NumPy's tie order). -/
noncomputable def np_argsort (v : List ℝ) : List Nat :=
  @List.insertionSort Nat (npRelAsc v) (Classical.decRel _) (List.range v.length)

/-- The index selection of the line-mode `recommend_papers`:
`np.argsort(-sims)[:top_k]`. -/
noncomputable def cliRankedIdx (query : String) (df : List Paper) (top_k : Int) :
    List Nat :=
  pyTake top_k (np_argsort ((simsList df query).map fun x => -x))

/-- The index selection of the form-based `recommend_papers`:
`sims.argsort()[-top_k:][::-1]`. -/
noncomputable def uiRankedIdx (query : String) (df : List Paper) (top_k : Int) :
    List Nat :=
  (pyLastSlice top_k (np_argsort (simsList df query))).reverse

/-- `recommend_papers` of `cs_journal_recommender.py` (line-mode surface),
called as in `main`: `recommend_papers(query, df, *build_tfidf(df), top_k)`,
returning `df.iloc[idx].reset_index(drop=True)`. -/
noncomputable def recommend_papers (query : String) (df : List Paper)
    (top_k : Int) : List Paper :=
  iloc df (cliRankedIdx query df top_k)

/-- `recommend_papers` of `cs_journal_ui.py` (form-based surface), same
call pattern. -/
noncomputable def ui_recommend_papers (query : String) (df : List Paper)
    (top_k : Int) : List Paper :=
  iloc df (uiRankedIdx query df top_k)

/-- `build_tfidf(df)` as observed by a caller: sklearn's `fit_transform`
raises `ValueError` on an empty vocabulary (in particular on an empty
corpus); otherwise it returns the fitted vectorizer and the weight matrix,
here rendered as the vocabulary together with the normalised rows. -/
noncomputable def build_tfidf (df : List Paper) :
    Except String (List String × List (String → ℝ)) :=
  if (vocabOf df).isEmpty then Except.error "empty vocabulary"
  else Except.ok (vocabOf df, df.map fun p => rowVec df p.text)

/-! ## Basic facts about `iloc` and the slices -/

theorem iloc_cons (df : List Paper) (i : Nat) (idx : List Nat) :
    iloc df (i :: idx) = (df[i]?).toList ++ iloc df idx := by
  unfold iloc
  rw [List.filterMap_cons]
  cases df[i]? <;> rfl

theorem iloc_append (df : List Paper) (a b : List Nat) :
    iloc df (a ++ b) = iloc df a ++ iloc df b :=
  List.filterMap_append a b _

theorem iloc_reverse (df : List Paper) (l : List Nat) :
    iloc df l.reverse = (iloc df l).reverse :=
  List.filterMap_reverse _ l

theorem iloc_length (df : List Paper) (idx : List Nat)
    (h : ∀ i ∈ idx, i < df.length) : (iloc df idx).length = idx.length := by
  induction idx with
  | nil => rfl
  | cons i idx ih =>
    have hi : i < df.length := h i (List.mem_cons_self i idx)
    rw [iloc_cons, List.length_append, List.getElem?_eq_getElem hi,
      ih fun j hj => h j (List.mem_cons_of_mem i hj)]
    simp [Nat.add_comm]

theorem iloc_range' (df : List Paper) :
    ∀ (k s : Nat), iloc df (List.range' s k) = (df.drop s).take k := by
  intro k
  induction k with
  | zero => intro s; rfl
  | succ k ih =>
    intro s
    rw [List.range'_succ, iloc_cons, ih (s + 1)]
    by_cases hs : s < df.length
    · rw [List.getElem?_eq_getElem hs, List.drop_eq_getElem_cons hs]
      rfl
    · push_neg at hs
      rw [List.getElem?_eq_none (by simpa using hs),
        List.drop_eq_nil_of_le hs, List.drop_eq_nil_of_le (by omega)]
      simp

theorem iloc_range (df : List Paper) (m : Nat) :
    iloc df (List.range m) = df.take m := by
  rw [List.range_eq_range', iloc_range', List.drop_zero]

theorem iloc_drop_range (df : List Paper) (m : Nat) :
    iloc df ((List.range df.length).drop m) = df.drop m := by
  rcases le_or_lt df.length m with hm | hm
  · rw [List.drop_eq_nil_of_le (by simpa using hm), List.drop_eq_nil_of_le hm]
    rfl
  · have hsplit := List.take_append_drop m (List.range df.length)
    have h1 : iloc df (List.range df.length) = df := by
      simpa using iloc_range df df.length
    have h2 : iloc df ((List.range df.length).take m) = df.take m := by
      rw [List.take_range, iloc_range, min_eq_left (le_of_lt hm)]
    have h3 : df.take m ++ iloc df ((List.range df.length).drop m) = df := by
      rw [← h2, ← iloc_append, hsplit, h1]
    have h4 : df.take m ++ df.drop m = df := List.take_append_drop m df
    exact List.append_cancel_left (h3.trans h4.symm)

/-! ## Basic facts about `np_argsort` -/

theorem np_argsort_perm (v : List ℝ) :
    List.Perm (np_argsort v) (List.range v.length) :=
  @List.perm_insertionSort Nat (npRelAsc v) (Classical.decRel _)
    (List.range v.length)

theorem length_np_argsort (v : List ℝ) : (np_argsort v).length = v.length := by
  rw [(np_argsort_perm v).length_eq, List.length_range]

theorem mem_np_argsort {v : List ℝ} {i : Nat} :
    i ∈ np_argsort v ↔ i < v.length := by
  rw [(np_argsort_perm v).mem_iff, List.mem_range]

theorem nodup_np_argsort (v : List ℝ) : (np_argsort v).Nodup :=
  (np_argsort_perm v).nodup_iff.mpr (List.nodup_range _)

theorem npRelAsc_total (v : List ℝ) :
    ∀ i j, npRelAsc v i j ∨ npRelAsc v j i := by
  intro i j
  unfold npRelAsc
  rcases lt_trichotomy (v.getD i 0) (v.getD j 0) with h | h | h
  · exact Or.inl (Or.inl h)
  · rcases Nat.le_total i j with hij | hij
    · exact Or.inl (Or.inr ⟨h, hij⟩)
    · exact Or.inr (Or.inr ⟨h.symm, hij⟩)
  · exact Or.inr (Or.inl h)

theorem npRelAsc_trans (v : List ℝ) :
    ∀ i j k, npRelAsc v i j → npRelAsc v j k → npRelAsc v i k := by
  intro i j k hij hjk
  unfold npRelAsc at *
  rcases hij with h1 | ⟨e1, l1⟩
  · rcases hjk with h2 | ⟨e2, _⟩
    · exact Or.inl (h1.trans h2)
    · exact Or.inl (e2 ▸ h1)
  · rcases hjk with h2 | ⟨e2, l2⟩
    · exact Or.inl (e1 ▸ h2)
    · exact Or.inr ⟨e1.trans e2, l1.trans l2⟩

theorem np_argsort_sorted (v : List ℝ) :
    List.Sorted (npRelAsc v) (np_argsort v) := by
  haveI hT : IsTotal Nat (npRelAsc v) := ⟨npRelAsc_total v⟩
  haveI hR : IsTrans Nat (npRelAsc v) := ⟨npRelAsc_trans v⟩
  exact @List.sorted_insertionSort Nat (npRelAsc v) (Classical.decRel _) hT hR
    (List.range v.length)

theorem np_argsort_of_sorted_range {v : List ℝ}
    (h : List.Sorted (npRelAsc v) (List.range v.length)) :
    np_argsort v = List.range v.length :=
  @List.Sorted.insertionSort_eq Nat (npRelAsc v) (Classical.decRel _) _ h

/-! ## Facts about the similarity list -/

theorem length_simsList (df : List Paper) (q : String) :
    (simsList df q).length = df.length := by
  simp [simsList]

theorem simsList_getD (df : List Paper) (q : String) {j : Nat}
    (hj : j < df.length) :
    (simsList df q).getD j 0 =
      dotV df (rowVec df q) (rowVec df (df.get ⟨j, hj⟩).text) := by
  have hjs : j < (simsList df q).length := by rw [length_simsList]; exact hj
  rw [List.getD_eq_getElem _ _ hjs]
  simp [simsList]

theorem getD_map_neg (s : List ℝ) {i : Nat} (h : i < s.length) :
    (s.map fun x => -x).getD i 0 = -(s.getD i 0) := by
  have h' : i < (s.map fun x => -x).length := by simpa using h
  rw [List.getD_eq_getElem _ _ h', List.getD_eq_getElem _ _ h]
  simp

/-! ## Lengths of the ranked index lists -/

theorem take_min_length {α : Type} (l : List α) (a : Nat) :
    l.take (min a l.length) = l.take a := by
  rcases le_or_lt a l.length with h | h
  · rw [min_eq_left h]
  · rw [min_eq_right (le_of_lt h), List.take_length,
      List.take_of_length_le (le_of_lt h)]

theorem iloc_pyTake_range (df : List Paper) (k : Int) :
    iloc df (pyTake k (List.range df.length)) = pyTake k df := by
  unfold pyTake
  rw [List.length_range]
  split
  · rw [List.take_range, iloc_range]
    exact take_min_length df _
  · rw [List.take_range, iloc_range]
    exact take_min_length df _

theorem iloc_pyLastSlice_range (df : List Paper) (k : Int) :
    iloc df (pyLastSlice k (List.range df.length)) = pyLastSlice k df := by
  unfold pyLastSlice
  rw [List.length_range]
  split
  · exact iloc_drop_range df _
  · exact iloc_drop_range df _

theorem cliRankedIdx_valid (q : String) (df : List Paper) (k : Int) :
    ∀ i ∈ cliRankedIdx q df k, i < df.length := by
  intro i hi
  unfold cliRankedIdx pyTake at hi
  have hmem : i ∈ np_argsort ((simsList df q).map fun x => -x) := by
    split at hi <;> exact List.mem_of_mem_take hi
  rw [mem_np_argsort] at hmem
  simpa [length_simsList] using hmem

theorem uiRankedIdx_valid (q : String) (df : List Paper) (k : Int) :
    ∀ i ∈ uiRankedIdx q df k, i < df.length := by
  intro i hi
  unfold uiRankedIdx pyLastSlice at hi
  rw [List.mem_reverse] at hi
  have hmem : i ∈ np_argsort (simsList df q) := by
    split at hi <;> exact List.mem_of_mem_drop hi
  rw [mem_np_argsort] at hmem
  simpa [length_simsList] using hmem

theorem length_recommend (df : List Paper) (q : String) (k : Int) (hk : 0 < k) :
    (recommend_papers q df k).length = min k.toNat df.length := by
  unfold recommend_papers
  rw [iloc_length df _ (cliRankedIdx_valid q df k)]
  unfold cliRankedIdx pyTake
  rw [if_pos (le_of_lt hk), List.length_take, length_np_argsort]
  simp [length_simsList]

theorem length_ui_recommend (df : List Paper) (q : String) (k : Int)
    (hk : 0 < k) :
    (ui_recommend_papers q df k).length = min k.toNat df.length := by
  unfold ui_recommend_papers
  rw [iloc_length df _ (uiRankedIdx_valid q df k)]
  unfold uiRankedIdx pyLastSlice
  rw [if_pos hk, List.length_reverse, List.length_drop, length_np_argsort,
    length_simsList]
  omega

/-- C1: for every corpus, query and `topK > 0`, both surfaces' ranking
functions return exactly `min(topK, |corpus|)` records. -/
theorem rank_returns_min_topK_corpus (df : List Paper) (q : String) (k : Int)
    (hk : 0 < k) :
    (recommend_papers q df k).length = min k.toNat df.length ∧
    (ui_recommend_papers q df k).length = min k.toNat df.length :=
  ⟨length_recommend df q k hk, length_ui_recommend df q k hk⟩

/-- The 3-record corpus of the witness scenario (spec scenario 3). -/
def c1df : List Paper :=
  [{ title := "graph coloring", abstract := "on graph coloring",
     text := "graph coloring. on graph coloring", authors := "A", year := "2020",
     pdf_link := none },
   { title := "deadlock detection", abstract := "on deadlock detection",
     text := "deadlock detection. on deadlock detection", authors := "B",
     year := "2021", pdf_link := some "http://x/1" },
   { title := "neural nets", abstract := "on neural nets",
     text := "neural nets. on neural nets", authors := "C", year := "2022",
     pdf_link := none }]

/-- Witness for C1: `topK = 5` against the 3-record corpus returns exactly
3 records on both surfaces. -/
theorem rank_returns_min_topK_corpus_witness :
    (recommend_papers "graph" c1df 5).length = 3 ∧
    (ui_recommend_papers "graph" c1df 5).length = 3 := by
  have h := rank_returns_min_topK_corpus c1df "graph" 5 (by decide)
  exact ⟨h.1.trans (by decide), h.2.trans (by decide)⟩

/-! ## C10: negative `top_k` reaching the line-mode ranker -/

theorem length_recommend_neg (df : List Paper) (q : String) (t : Int)
    (hneg : t < 0) (hlt : t.natAbs < df.length) :
    (recommend_papers q df t).length = df.length - t.natAbs := by
  unfold recommend_papers
  rw [iloc_length df _ (cliRankedIdx_valid q df t)]
  unfold cliRankedIdx pyTake
  rw [if_neg (by omega), List.length_take, length_np_argsort]
  simp only [List.length_map, length_simsList]
  omega

theorem parse_topk_parses (s : String) (v : Int) (hs : s ≠ "")
    (hv : parse_int s = some v) : parse_topk s = v := by
  unfold parse_topk
  rw [if_neg hs, hv]

/-- C10: a negative `top_k = t` with `|t| < n` makes the line-mode
`recommend_papers` return `n - |t|` records (Python negative-slice
behavior), and any string parsing to an integer — negative ones included —
passes through the line-mode top-K input handling unchanged. -/
theorem negative_topk_slices_corpus (df : List Paper) (q : String) (t : Int)
    (hneg : t < 0) (hlt : t.natAbs < df.length) :
    (recommend_papers q df t).length = df.length - t.natAbs ∧
    ∀ s v, s ≠ "" → parse_int s = some v → parse_topk s = v :=
  ⟨length_recommend_neg df q t hneg hlt, parse_topk_parses⟩

/-- The 3-record corpus used by the C10 witness. -/
def c10df : List Paper :=
  [{ title := "t0", abstract := "a0", text := "t0. a0", authors := "", year := "",
     pdf_link := none },
   { title := "t1", abstract := "a1", text := "t1. a1", authors := "", year := "",
     pdf_link := none },
   { title := "t2", abstract := "a2", text := "t2. a2", authors := "", year := "",
     pdf_link := none }]

/-- Witness for C10 at `t = -1` against a 3-record corpus. -/
theorem negative_topk_slices_corpus_witness :
    (recommend_papers "q" c10df (-1)).length = 2 ∧ parse_topk "-1" = -1 := by
  have h := negative_topk_slices_corpus c10df "q" (-1) (by decide) (by decide)
  exact ⟨h.1.trans (by decide), h.2 "-1" (-1) (by decide) (by decide)⟩

/-! ## Queries with only stop-words or out-of-vocabulary terms -/

theorem mem_rawVocab_not_stop {df : List Paper} {t : String}
    (h : t ∈ rawVocab df) : t ∉ ENGLISH_STOP_WORDS := by
  unfold rawVocab at h
  rw [List.mem_dedup, List.mem_filter] at h
  simpa using h.2

theorem mem_vocabOf_mem_raw {df : List Paper} {t : String}
    (h : t ∈ vocabOf df) : t ∈ rawVocab df := by
  unfold vocabOf at h
  simp only [] at h
  split at h
  · rwa [List.mem_insertionSort] at h
  · rw [List.mem_insertionSort] at h
    have h2 := List.mem_of_mem_take h
    rwa [List.mem_insertionSort, List.mem_insertionSort] at h2

theorem mem_vocabOf_not_stop {df : List Paper} {t : String}
    (h : t ∈ vocabOf df) : t ∉ ENGLISH_STOP_WORDS :=
  mem_rawVocab_not_stop (mem_vocabOf_mem_raw h)

theorem termCount_query_zero {df : List Paper} {q t : String}
    (hq : ∀ tok ∈ tokenize q, tok ∈ ENGLISH_STOP_WORDS ∨ tok ∉ vocabOf df)
    (ht : t ∈ vocabOf df) : termCount q t = 0 := by
  unfold termCount
  rw [List.count_eq_zero]
  intro hmem
  rcases hq t hmem with hstop | hnv
  · exact mem_vocabOf_not_stop ht hstop
  · exact hnv ht

theorem rowVec_query_zero {df : List Paper} {q : String}
    (hq : ∀ tok ∈ tokenize q, tok ∈ ENGLISH_STOP_WORDS ∨ tok ∉ vocabOf df)
    {t : String} (ht : t ∈ vocabOf df) : rowVec df q t = 0 := by
  unfold rowVec l2normalize
  have h0 : rawVec df q t = 0 := by
    unfold rawVec
    rw [termCount_query_zero hq ht]
    simp
  rw [h0, zero_div]

theorem simsList_zero {df : List Paper} {q : String}
    (hq : ∀ tok ∈ tokenize q, tok ∈ ENGLISH_STOP_WORDS ∨ tok ∉ vocabOf df) :
    simsList df q = List.replicate df.length 0 := by
  unfold simsList
  rw [List.eq_replicate_iff]
  refine ⟨by simp, ?_⟩
  intro b hb
  rw [List.mem_map] at hb
  obtain ⟨p, _, rfl⟩ := hb
  unfold dotV
  apply Finset.sum_eq_zero
  intro t ht
  rw [rowVec_query_zero hq (List.mem_toFinset.mp ht), zero_mul]

theorem np_argsort_replicate (n : Nat) (c : ℝ) :
    np_argsort (List.replicate n c) = List.range n := by
  have hs : List.Sorted (npRelAsc (List.replicate n c))
      (List.range (List.replicate n c).length) := by
    rw [List.length_replicate]
    refine List.Pairwise.imp_of_mem ?_ (List.sorted_lt_range n)
    intro a b ha hb hab
    rw [List.mem_range] at ha hb
    right
    refine ⟨?_, le_of_lt hab⟩
    rw [List.getD_eq_getElem _ _ (by simpa using ha),
      List.getD_eq_getElem _ _ (by simpa using hb),
      List.getElem_replicate, List.getElem_replicate]
  have h := np_argsort_of_sorted_range hs
  rwa [List.length_replicate] at h

theorem recommend_zero_case (df : List Paper) (q : String)
    (hq : ∀ tok ∈ tokenize q, tok ∈ ENGLISH_STOP_WORDS ∨ tok ∉ vocabOf df)
    (k : Int) : recommend_papers q df k = pyTake k df := by
  unfold recommend_papers cliRankedIdx
  rw [simsList_zero hq]
  simp only [List.map_replicate, neg_zero]
  rw [np_argsort_replicate]
  exact iloc_pyTake_range df k

theorem ui_recommend_zero_case (df : List Paper) (q : String)
    (hq : ∀ tok ∈ tokenize q, tok ∈ ENGLISH_STOP_WORDS ∨ tok ∉ vocabOf df)
    (k : Int) : ui_recommend_papers q df k = (pyLastSlice k df).reverse := by
  unfold ui_recommend_papers uiRankedIdx
  rw [simsList_zero hq, np_argsort_replicate, iloc_reverse,
    iloc_pyLastSlice_range]

/-! ## Order of the returned rankings -/

/-- Non-increasing similarity with ties in ascending corpus position
(the stable descending order of `np.argsort(-sims)`). -/
def cliOrder (s : List ℝ) (i j : Nat) : Prop :=
  s.getD j 0 < s.getD i 0 ∨ (s.getD i 0 = s.getD j 0 ∧ i ≤ j)

/-- Non-increasing similarity with ties in descending corpus position
(the order of `sims.argsort()[-top_k:][::-1]`). -/
def uiOrder (s : List ℝ) (i j : Nat) : Prop :=
  s.getD j 0 < s.getD i 0 ∨ (s.getD i 0 = s.getD j 0 ∧ j ≤ i)

theorem pyTake_sublist {α : Type} (k : Int) (xs : List α) :
    (pyTake k xs).Sublist xs := by
  unfold pyTake
  split <;> exact List.take_sublist _ _

theorem pyLastSlice_sublist {α : Type} (k : Int) (xs : List α) :
    (pyLastSlice k xs).Sublist xs := by
  unfold pyLastSlice
  split <;> exact List.drop_sublist _ _

theorem np_argsort_neg_cliOrder_sorted (s : List ℝ) :
    List.Sorted (cliOrder s) (np_argsort (s.map fun x => -x)) := by
  have hA := np_argsort_sorted (s.map fun x => -x)
  refine List.Pairwise.imp_of_mem ?_ hA
  intro a b ha hb hab
  rw [mem_np_argsort, List.length_map] at ha hb
  unfold npRelAsc at hab
  rw [getD_map_neg _ ha, getD_map_neg _ hb] at hab
  unfold cliOrder
  rcases hab with h | ⟨he, hle⟩
  · exact Or.inl (by linarith)
  · exact Or.inr ⟨by linarith, hle⟩

theorem cliRankedIdx_sorted (q : String) (df : List Paper) (k : Int) :
    List.Sorted (cliOrder (simsList df q)) (cliRankedIdx q df k) :=
  List.Pairwise.sublist (pyTake_sublist k _)
    (np_argsort_neg_cliOrder_sorted (simsList df q))

theorem uiRankedIdx_sorted (q : String) (df : List Paper) (k : Int) :
    List.Sorted (uiOrder (simsList df q)) (uiRankedIdx q df k) := by
  have hA := np_argsort_sorted (simsList df q)
  have hdrop : List.Sorted (npRelAsc (simsList df q))
      (pyLastSlice k (np_argsort (simsList df q))) :=
    List.Pairwise.sublist (pyLastSlice_sublist k _) hA
  unfold uiRankedIdx
  apply List.pairwise_reverse.mpr
  refine List.Pairwise.imp_of_mem ?_ hdrop
  intro a b _ _ hab
  unfold npRelAsc at hab
  unfold uiOrder
  rcases hab with h | ⟨he, hle⟩
  · exact Or.inl h
  · exact Or.inr ⟨he.symm, hle⟩

/-- C2 (amended): both surfaces return records in non-increasing similarity
order; the line-mode surface breaks ties by ascending corpus position (stable),
while the form-based surface breaks ties by *descending* corpus position. -/
theorem rank_order_nonincreasing (df : List Paper) (q : String) (k : Int) :
    recommend_papers q df k = iloc df (cliRankedIdx q df k) ∧
    ui_recommend_papers q df k = iloc df (uiRankedIdx q df k) ∧
    List.Sorted (cliOrder (simsList df q)) (cliRankedIdx q df k) ∧
    List.Sorted (uiOrder (simsList df q)) (uiRankedIdx q df k) :=
  ⟨rfl, rfl, cliRankedIdx_sorted q df k, uiRankedIdx_sorted q df k⟩

/-! ## Concrete corpora for the counterexamples -/

/-- Records for the C2 counterexample. -/
def c2p0 : Paper :=
  { title := "graph coloring", abstract := "g0", text := "graph coloring. g0",
    authors := "", year := "", pdf_link := none }

def c2p1 : Paper :=
  { title := "deadlock detection", abstract := "g1",
    text := "deadlock detection. g1", authors := "", year := "",
    pdf_link := none }

def c2df : List Paper := [c2p0, c2p1]

/-- Counterexample to C2 as stated: on the form-based surface, a query whose
similarity to both records is the same (zero) returns the two equal-scored
records in *reversed* corpus order, not original corpus order. -/
theorem c2_ui_tie_order_reversed :
    simsList c2df "and" = [0, 0] ∧
    ui_recommend_papers "and" c2df 2 = [c2p1, c2p0] ∧
    [c2p1, c2p0] ≠ [c2p0, c2p1] := by
  have hq : ∀ tok ∈ tokenize "and",
      tok ∈ ENGLISH_STOP_WORDS ∨ tok ∉ vocabOf c2df := by decide
  refine ⟨?_, ?_, by decide⟩
  · have h := simsList_zero hq
    simpa using h
  · rw [ui_recommend_zero_case c2df "and" hq 2]
    decide

/-- Records for the C3 counterexample. -/
def c3p0 : Paper :=
  { title := "routing", abstract := "r0", text := "routing. r0", authors := "",
    year := "", pdf_link := none }

def c3p1 : Paper :=
  { title := "caching", abstract := "r1", text := "caching. r1", authors := "",
    year := "", pdf_link := none }

def c3df : List Paper := [c3p0, c3p1]

/-- Counterexample to C3 as stated: a stop-word-only query does give every
record a zero score, but the form-based surface returns the records in
reversed corpus order, not original corpus order. -/
theorem c3_ui_zero_query_not_original_order :
    simsList c3df "of" = [0, 0] ∧
    ui_recommend_papers "of" c3df 2 = [c3p1, c3p0] ∧
    [c3p1, c3p0] ≠ [c3p0, c3p1] := by
  have hq : ∀ tok ∈ tokenize "of",
      tok ∈ ENGLISH_STOP_WORDS ∨ tok ∉ vocabOf c3df := by decide
  refine ⟨?_, ?_, by decide⟩
  · have h := simsList_zero hq
    simpa using h
  · rw [ui_recommend_zero_case c3df "of" hq 2]
    decide

/-- C3 (amended): a query all of whose tokens are stop-words or absent from
the built vocabulary gets similarity exactly zero on every record; the
line-mode surface then returns the leading slice of the corpus in original
order, while the form-based surface returns the trailing slice in reversed
order. -/
theorem zero_query_uniform_zero_scores (df : List Paper) (q : String)
    (_hne : df ≠ [])
    (hq : ∀ tok ∈ tokenize q, tok ∈ ENGLISH_STOP_WORDS ∨ tok ∉ vocabOf df) :
    simsList df q = List.replicate df.length 0 ∧
    (recommend_papers q df 10 = pyTake 10 df ∧
     ui_recommend_papers q df 10 = (pyLastSlice 10 df).reverse) ∧
    ∀ k : Int, recommend_papers q df k = pyTake k df ∧
      ui_recommend_papers q df k = (pyLastSlice k df).reverse := by
  refine ⟨simsList_zero hq, ?_, ?_⟩
  · exact ⟨recommend_zero_case df q hq 10, ui_recommend_zero_case df q hq 10⟩
  · intro k
    exact ⟨recommend_zero_case df q hq k, ui_recommend_zero_case df q hq k⟩

/-- Single-record corpus for the C3 witness. -/
def c3wdf : List Paper :=
  [{ title := "compilers", abstract := "c", text := "compilers. c",
     authors := "", year := "", pdf_link := none }]

/-- Witness for the amended C3, at the stop-word query `"the"`. -/
theorem zero_query_uniform_zero_scores_witness :
    simsList c3wdf "the" = List.replicate c3wdf.length 0 ∧
    recommend_papers "the" c3wdf 10 = pyTake 10 c3wdf ∧
    ui_recommend_papers "the" c3wdf 10 = (pyLastSlice 10 c3wdf).reverse := by
  have h := zero_query_uniform_zero_scores c3wdf "the" (by decide) (by decide)
  exact ⟨h.1, h.2.1.1, h.2.1.2⟩

/-! ## C5: non-success fetch and the empty corpus -/

/-- C5: on any non-200 status the fetcher returns an empty corpus,
indistinguishable from a 200 response with no entries; building the index on
the empty corpus fails (sklearn raises on the empty vocabulary) instead of
producing an index. -/
theorem non_success_fetch_empty (r : Response) (h : r.status_code ≠ 200) :
    fetch_arxiv_papers r = [] ∧
    fetch_arxiv_papers r =
      fetch_arxiv_papers { status_code := 200, entries := [] } ∧
    build_tfidf [] = Except.error "empty vocabulary" := by
  refine ⟨?_, ?_, ?_⟩
  · unfold fetch_arxiv_papers
    rw [if_pos h]
  · unfold fetch_arxiv_papers
    rw [if_pos h]
    simp
  · rfl

/-- An entry list that a 503 response would carry in its body; the fetcher
must discard it. -/
def c5entry : AtomEntry :=
  { title := "Service Notice", summary := "unavailable", links := [],
    authorNames := [], published := "2020-01-01T00:00:00Z" }

/-- Witness for C5 at a concrete 503 response. -/
theorem non_success_fetch_empty_witness :
    fetch_arxiv_papers { status_code := 503, entries := [c5entry] } = [] ∧
    fetch_arxiv_papers { status_code := 503, entries := [c5entry] } =
      fetch_arxiv_papers { status_code := 200, entries := [] } ∧
    build_tfidf [] = Except.error "empty vocabulary" :=
  non_success_fetch_empty { status_code := 503, entries := [c5entry] }
    (by decide)

/-! ## C6: which pdf link the parser keeps -/

theorem pdfLink_foldl_eq_find_reverse (links : List AtomLink)
    (acc : Option String) :
    links.foldl
        (fun a l => if l.titleAttr = some "pdf" then some l.href else a) acc =
      ((links.reverse.find? fun l =>
          decide (l.titleAttr = some "pdf")).map AtomLink.href).or acc := by
  induction links generalizing acc with
  | nil => simp
  | cons l ls ih =>
    rw [List.foldl_cons, ih, List.reverse_cons, List.find?_append]
    cases hfind : ls.reverse.find? fun l => decide (l.titleAttr = some "pdf") with
    | some x => simp [hfind]
    | none =>
      by_cases hp : l.titleAttr = some "pdf"
      · simp [hfind, hp]
      · simp [hfind, hp]

theorem pdfLinkOf_eq_last (links : List AtomLink) :
    pdfLinkOf links =
      (links.reverse.find? fun l =>
        decide (l.titleAttr = some "pdf")).map AtomLink.href := by
  unfold pdfLinkOf
  rw [pdfLink_foldl_eq_find_reverse]
  exact Option.or_none

/-- C6 (amended): a record's `pdf_link` is the URL of the LAST link element
whose title attribute equals "pdf", and it is absent exactly when the entry
has no link with that title. -/
theorem pdfLink_is_last_pdf_titled (e : AtomEntry) :
    (mkPaper e).pdf_link =
      (e.links.reverse.find? fun l =>
        decide (l.titleAttr = some "pdf")).map AtomLink.href ∧
    ((mkPaper e).pdf_link = none ↔
      ∀ l ∈ e.links, l.titleAttr ≠ some "pdf") := by
  have hm : (mkPaper e).pdf_link = pdfLinkOf e.links := rfl
  constructor
  · rw [hm, pdfLinkOf_eq_last]
  · rw [hm, pdfLinkOf_eq_last]
    simp [List.find?_eq_none]

/-- An entry carrying two pdf-titled links. -/
def c6entry : AtomEntry :=
  { title := "Two Links", summary := "s",
    links := [{ titleAttr := some "pdf", href := "http://arxiv.org/pdf/first" },
              { titleAttr := some "pdf", href := "http://arxiv.org/pdf/second" }],
    authorNames := ["A"], published := "2021-01-02T03:04:05Z" }

/-- Counterexample to C6 as stated: with two pdf-titled links the record
keeps the last one's URL; the FIRST pdf-titled link's URL differs. -/
theorem c6_pdfLink_not_first :
    (mkPaper c6entry).pdf_link = some "http://arxiv.org/pdf/second" ∧
    (c6entry.links.find? fun l =>
        decide (l.titleAttr = some "pdf")).map AtomLink.href =
      some "http://arxiv.org/pdf/first" ∧
    (mkPaper c6entry).pdf_link ≠ some "http://arxiv.org/pdf/first" := by
  refine ⟨?_, by decide, ?_⟩
  · show pdfLinkOf c6entry.links = _
    decide
  · show pdfLinkOf c6entry.links ≠ _
    decide

/-! ## C8: determinism of build and rank -/

/-- C8: `build_tfidf` and `recommend_papers` are pure functions of the corpus
and query: two runs on equal inputs produce equal indexes and equal rankings,
and no state is carried between rank calls (the embedding of the Python code
is stateless). -/
theorem build_and_rank_deterministic (df1 df2 : List Paper) (_h : df1 ≠ [])
    (heq : df1 = df2) (q1 q2 : String) (hq : q1 = q2) (k : Int) :
    build_tfidf df1 = build_tfidf df2 ∧
    simsList df1 q1 = simsList df2 q2 ∧
    recommend_papers q1 df1 k = recommend_papers q2 df2 k := by
  subst heq
  subst hq
  exact ⟨rfl, rfl, rfl⟩

/-- Corpus for the C8 witness. -/
def c8df : List Paper :=
  [{ title := "machine learning", abstract := "ml survey",
     text := "machine learning. ml survey", authors := "D", year := "2019",
     pdf_link := none }]

/-- Witness for C8: two runs against the same one-record corpus. -/
theorem build_and_rank_deterministic_witness :
    build_tfidf c8df = build_tfidf c8df ∧
    simsList c8df "learning" = simsList c8df "learning" ∧
    recommend_papers "learning" c8df 10 = recommend_papers "learning" c8df 10 :=
  build_and_rank_deterministic c8df c8df (by decide) rfl "learning" "learning"
    rfl 10

/-! ## C9: the top-K default substitution -/

/-- C9 (amended): the line-mode loop substitutes the default 10 exactly when
the top-K input is empty or fails integer parsing; an input parsing to a
non-positive integer is passed to `recommend_papers` unchanged, so rank can
be invoked with `topK ≤ 0`. -/
theorem topk_default_on_unparsable (s : String) (v : Int) :
    (parse_int s = none → parse_topk s = 10) ∧
    (s ≠ "" → parse_int s = some v → parse_topk s = v) := by
  constructor
  · intro h
    unfold parse_topk
    by_cases hs : s = ""
    · rw [if_pos hs]
    · rw [if_neg hs, h]
  · exact parse_topk_parses s v

/-- Witness for the amended C9: an unparsable input gets the default, a
negative input does not. -/
theorem topk_default_on_unparsable_witness :
    parse_topk "abc" = 10 ∧ parse_topk "-3" = -3 :=
  ⟨(topk_default_on_unparsable "abc" 0).1 (by decide),
   (topk_default_on_unparsable "-3" (-3)).2 (by decide) (by decide)⟩

/-- Counterexample to C9 as stated: the input "-3" cannot be parsed as a
*positive* integer, yet the default 10 is not substituted — the parsed value
-3 reaches `recommend_papers`, which is therefore invoked with `topK ≤ 0`. -/
theorem c9_negative_topk_reaches_rank :
    parse_topk "-3" = -3 ∧ ¬ (0 < parse_topk "-3") := by
  constructor <;> decide

/-! ## C4: a query equal to a record's combined text -/

theorem sqNorm_nonneg (df : List Paper) (x : String → ℝ) : 0 ≤ sqNorm df x :=
  Finset.sum_nonneg fun _ _ => sq_nonneg _

theorem l2normalize_zero_of_sqNorm_zero (df : List Paper) (x : String → ℝ)
    (hx : sqNorm df x = 0) {t : String} (ht : t ∈ vocabSet df) :
    l2normalize df x t = 0 := by
  have hsq : x t ^ 2 = 0 :=
    (Finset.sum_eq_zero_iff_of_nonneg fun u _ => sq_nonneg (x u)).mp hx t ht
  have hxt : x t = 0 := by
    have h2 : (2 : ℕ) ≠ 0 := by norm_num
    exact (pow_eq_zero_iff h2).mp hsq
  unfold l2normalize
  rw [hxt, zero_div]

theorem dot_l2_le_self (df : List Paper) (x y : String → ℝ) :
    dotV df (l2normalize df x) (l2normalize df y) ≤
      dotV df (l2normalize df x) (l2normalize df x) := by
  by_cases hx : sqNorm df x = 0
  · have hl : dotV df (l2normalize df x) (l2normalize df y) = 0 :=
      Finset.sum_eq_zero fun t ht => by
        rw [l2normalize_zero_of_sqNorm_zero df x hx ht, zero_mul]
    have hr : dotV df (l2normalize df x) (l2normalize df x) = 0 :=
      Finset.sum_eq_zero fun t ht => by
        rw [l2normalize_zero_of_sqNorm_zero df x hx ht, zero_mul]
    rw [hl, hr]
  · have hxpos : 0 < sqNorm df x :=
      lt_of_le_of_ne (sqNorm_nonneg df x) (Ne.symm hx)
    have ha : Real.sqrt (sqNorm df x) ≠ 0 := ne_of_gt (Real.sqrt_pos.mpr hxpos)
    have hxsimp : ∀ t, l2normalize df x t = x t / Real.sqrt (sqNorm df x) := by
      intro t
      unfold l2normalize
      rw [if_neg ha]
    have hrhs : dotV df (l2normalize df x) (l2normalize df x) = 1 := by
      unfold dotV
      have hterm : ∀ t ∈ vocabSet df,
          l2normalize df x t * l2normalize df x t = x t ^ 2 / sqNorm df x := by
        intro t _
        rw [hxsimp, div_mul_div_comm, Real.mul_self_sqrt (sqNorm_nonneg df x),
          ← pow_two]
      rw [Finset.sum_congr rfl hterm, ← Finset.sum_div]
      exact div_self hx
    rw [hrhs]
    by_cases hy : sqNorm df y = 0
    · have hl : dotV df (l2normalize df x) (l2normalize df y) = 0 :=
        Finset.sum_eq_zero fun t ht => by
          rw [l2normalize_zero_of_sqNorm_zero df y hy ht, mul_zero]
      rw [hl]
      norm_num
    · have hypos : 0 < sqNorm df y :=
        lt_of_le_of_ne (sqNorm_nonneg df y) (Ne.symm hy)
      have hb : Real.sqrt (sqNorm df y) ≠ 0 :=
        ne_of_gt (Real.sqrt_pos.mpr hypos)
      have hysimp : ∀ t, l2normalize df y t = y t / Real.sqrt (sqNorm df y) := by
        intro t
        unfold l2normalize
        rw [if_neg hb]
      have hlhs : dotV df (l2normalize df x) (l2normalize df y) =
          (∑ t ∈ vocabSet df, x t * y t) /
            (Real.sqrt (sqNorm df x) * Real.sqrt (sqNorm df y)) := by
        unfold dotV
        have hterm : ∀ t ∈ vocabSet df,
            l2normalize df x t * l2normalize df y t =
              x t * y t /
                (Real.sqrt (sqNorm df x) * Real.sqrt (sqNorm df y)) := by
          intro t _
          rw [hxsimp, hysimp, div_mul_div_comm]
        rw [Finset.sum_congr rfl hterm, ← Finset.sum_div]
      rw [hlhs]
      have habpos : 0 < Real.sqrt (sqNorm df x) * Real.sqrt (sqNorm df y) :=
        mul_pos (Real.sqrt_pos.mpr hxpos) (Real.sqrt_pos.mpr hypos)
      rw [div_le_one habpos]
      exact Real.sum_mul_le_sqrt_mul_sqrt (vocabSet df) x y

theorem exact_text_scores_max (df : List Paper) (d : Nat) (hd : d < df.length)
    (q : String) (hq : q = (df.get ⟨d, hd⟩).text) :
    ∀ j, j < df.length →
      (simsList df q).getD j 0 ≤ (simsList df q).getD d 0 := by
  subst hq
  intro j hj
  rw [simsList_getD _ _ hj, simsList_getD _ _ hd]
  exact dot_l2_le_self df (rawVec df (df.get ⟨d, hd⟩).text)
    (rawVec df (df.get ⟨j, hj⟩).text)

theorem cliRankedIdx_head_top (df : List Paper) (q : String) (d : Nat)
    (hd : d < df.length)
    (hmax : ∀ j, j < df.length →
      (simsList df q).getD j 0 ≤ (simsList df q).getD d 0)
    (k : Int) (hk : 0 < k) :
    ∃ i, (cliRankedIdx q df k).head? = some i ∧
      (simsList df q).getD i 0 = (simsList df q).getD d 0 := by
  have hlenA : (np_argsort ((simsList df q).map fun x => -x)).length =
      df.length := by
    rw [length_np_argsort, List.length_map, length_simsList]
  cases hA : np_argsort ((simsList df q).map fun x => -x) with
  | nil =>
    rw [hA] at hlenA
    simp at hlenA
    omega
  | cons h0 rest =>
    refine ⟨h0, ?_, ?_⟩
    · unfold cliRankedIdx pyTake
      rw [if_pos hk.le, hA]
      obtain ⟨m, hm⟩ : ∃ m, k.toNat = m + 1 := ⟨k.toNat - 1, by omega⟩
      rw [hm, List.take_succ_cons]
      rfl
    · have hsorted := np_argsort_neg_cliOrder_sorted (simsList df q)
      rw [hA] at hsorted
      have hdmem : d ∈ h0 :: rest := by
        rw [← hA, mem_np_argsort, List.length_map, length_simsList]
        exact hd
      have hh0lt : h0 < df.length := by
        have hm : h0 ∈ np_argsort ((simsList df q).map fun x => -x) := by
          rw [hA]
          exact List.mem_cons_self _ _
        rw [mem_np_argsort, List.length_map, length_simsList] at hm
        exact hm
      rcases List.mem_cons.mp hdmem with heq | hmem
      · rw [heq]
      · have hrel := List.rel_of_sorted_cons hsorted d hmem
        unfold cliOrder at hrel
        rcases hrel with hlt | ⟨heq, _⟩
        · exact le_antisymm (hmax h0 hh0lt) (le_of_lt hlt)
        · exact heq

/-- C4: if the query equals record `d`'s combined text exactly, then `d`'s
similarity score is greater than or equal to every record's score, and for
every `topK > 0` the first-ranked record of the line-mode ranker has exactly
`d`'s score — `d` ranks first or ties for first. -/
theorem exact_text_query_ranks_first (df : List Paper) (d : Nat)
    (hd : d < df.length) (q : String) (hq : q = (df.get ⟨d, hd⟩).text) :
    (∀ j, j < df.length →
      (simsList df q).getD j 0 ≤ (simsList df q).getD d 0) ∧
    ∀ k : Int, 0 < k → ∃ i, (cliRankedIdx q df k).head? = some i ∧
      (simsList df q).getD i 0 = (simsList df q).getD d 0 := by
  have hmax := exact_text_scores_max df d hd q hq
  exact ⟨hmax, fun k hk => cliRankedIdx_head_top df q d hd hmax k hk⟩

/-- Two-record corpus for the C4 witness. -/
def c4df : List Paper :=
  [{ title := "graph coloring", abstract := "np hard",
     text := "graph coloring. np hard", authors := "A", year := "2020",
     pdf_link := none },
   { title := "neural nets", abstract := "deep learning",
     text := "neural nets. deep learning", authors := "B", year := "2021",
     pdf_link := none }]

/-- Witness for C4: the query equal to record 0's combined text scores at
least as high as record 1, and the first-ranked record carries record 0's
score. -/
theorem exact_text_query_ranks_first_witness :
    (simsList c4df "graph coloring. np hard").getD 1 0 ≤
      (simsList c4df "graph coloring. np hard").getD 0 0 ∧
    ∃ i, (cliRankedIdx "graph coloring. np hard" c4df 10).head? = some i ∧
      (simsList c4df "graph coloring. np hard").getD i 0 =
        (simsList c4df "graph coloring. np hard").getD 0 0 := by
  have h := exact_text_query_ranks_first c4df 0 (by decide)
    "graph coloring. np hard" rfl
  exact ⟨h.1 1 (by decide), h.2 10 (by decide)⟩

/-! ## C7: the two surfaces compared -/

theorem np_argsort_eq_reverse_of_distinct (s : List ℝ)
    (hdist : ∀ i j, i < s.length → j < s.length →
      s.getD i 0 = s.getD j 0 → i = j) :
    np_argsort s = (np_argsort (s.map fun x => -x)).reverse := by
  haveI hanti : IsAntisymm Nat fun i j => s.getD i 0 < s.getD j 0 ∨ i = j :=
    ⟨by
      intro a b hab hba
      rcases hab with h1 | h1
      · rcases hba with h2 | h2
        · exact absurd h2 (not_lt_of_lt h1)
        · exact h2.symm
      · exact h1⟩
  have h1 : List.Sorted (fun i j => s.getD i 0 < s.getD j 0 ∨ i = j)
      (np_argsort s) := by
    have hp := (np_argsort_sorted s).and (nodup_np_argsort s)
    refine List.Pairwise.imp_of_mem ?_ hp
    intro a b ha hb hab
    rw [mem_np_argsort] at ha hb
    obtain ⟨hrel, hne⟩ := hab
    unfold npRelAsc at hrel
    rcases hrel with h | ⟨he, _⟩
    · exact Or.inl h
    · exact absurd (hdist a b ha hb he) hne
  have h2 : List.Sorted (fun i j => s.getD i 0 < s.getD j 0 ∨ i = j)
      (np_argsort (s.map fun x => -x)).reverse := by
    apply List.pairwise_reverse.mpr
    have hp := (np_argsort_sorted (s.map fun x => -x)).and
      (nodup_np_argsort (s.map fun x => -x))
    refine List.Pairwise.imp_of_mem ?_ hp
    intro a b ha hb hab
    rw [mem_np_argsort, List.length_map] at ha hb
    obtain ⟨hrel, hne⟩ := hab
    unfold npRelAsc at hrel
    rw [getD_map_neg _ ha, getD_map_neg _ hb] at hrel
    rcases hrel with h | ⟨he, _⟩
    · exact Or.inl (by linarith)
    · have : a = b := hdist a b ha hb (by linarith)
      exact absurd this hne
  have hperm : List.Perm (np_argsort s)
      (np_argsort (s.map fun x => -x)).reverse := by
    refine (np_argsort_perm s).trans (List.Perm.trans ?_
      (List.reverse_perm _).symm)
    have hp := np_argsort_perm (s.map fun x => -x)
    rw [List.length_map] at hp
    exact hp.symm
  exact List.eq_of_perm_of_sorted hperm h1 h2

theorem pyTake_eq_reverse_pyLastSlice {α : Type} (k : Int) (hk : 0 < k)
    (l : List α) : pyTake k l = (pyLastSlice k l.reverse).reverse := by
  unfold pyTake pyLastSlice
  rw [if_pos hk.le, if_pos hk, List.length_reverse, List.drop_reverse,
    List.reverse_reverse]
  rcases le_or_lt k.toNat l.length with h | h
  · congr 1
    omega
  · rw [List.take_of_length_le (le_of_lt h), List.take_of_length_le]
    omega

/-- C7 (amended): whenever the similarity scores of the corpus records are
pairwise distinct, the line-mode and the form-based `recommend_papers` return
the same records in the same order for every `topK > 0`; on tied scores the
two surfaces differ. -/
theorem surfaces_agree_on_distinct_scores (df : List Paper) (q : String)
    (k : Int) (hk : 0 < k)
    (hdist : ∀ i j, i < df.length → j < df.length →
      (simsList df q).getD i 0 = (simsList df q).getD j 0 → i = j) :
    recommend_papers q df k = ui_recommend_papers q df k := by
  unfold recommend_papers ui_recommend_papers cliRankedIdx uiRankedIdx
  have hdist' : ∀ i j, i < (simsList df q).length →
      j < (simsList df q).length →
      (simsList df q).getD i 0 = (simsList df q).getD j 0 → i = j := by
    rw [length_simsList]
    exact hdist
  rw [np_argsort_eq_reverse_of_distinct (simsList df q) hdist',
    ← pyTake_eq_reverse_pyLastSlice k hk]

/-- Single-record corpus for the C7 witness (scores are trivially pairwise
distinct). -/
def c7wdf : List Paper :=
  [{ title := "virtualization", abstract := "cloud",
     text := "virtualization. cloud", authors := "E", year := "2018",
     pdf_link := none }]

/-- Witness for the amended C7 on a corpus with (trivially) distinct
scores. -/
theorem surfaces_agree_on_distinct_scores_witness :
    recommend_papers "cloud" c7wdf 1 = ui_recommend_papers "cloud" c7wdf 1 :=
  surfaces_agree_on_distinct_scores c7wdf "cloud" 1 (by decide)
    (fun i j hi hj _ => by
      simp only [c7wdf, List.length_cons, List.length_nil] at hi hj
      omega)

/-- Records for the C7 counterexample. -/
def c7p0 : Paper :=
  { title := "scheduling", abstract := "s0", text := "scheduling. s0",
    authors := "", year := "", pdf_link := none }

def c7p1 : Paper :=
  { title := "paging", abstract := "s1", text := "paging. s1", authors := "",
    year := "", pdf_link := none }

def c7df : List Paper := [c7p0, c7p1]

/-- Counterexample to C7 as stated: on tied (zero) scores the two surfaces
return the same records in different orders. -/
theorem c7_surfaces_differ_on_ties :
    recommend_papers "the" c7df 2 = [c7p0, c7p1] ∧
    ui_recommend_papers "the" c7df 2 = [c7p1, c7p0] ∧
    recommend_papers "the" c7df 2 ≠ ui_recommend_papers "the" c7df 2 := by
  have hq : ∀ tok ∈ tokenize "the",
      tok ∈ ENGLISH_STOP_WORDS ∨ tok ∉ vocabOf c7df := by decide
  have h1 := recommend_zero_case c7df "the" hq 2
  have h2 := ui_recommend_zero_case c7df "the" hq 2
  refine ⟨h1.trans (by decide), h2.trans (by decide), ?_⟩
  rw [h1, h2]
  decide
